import Mathlib

/-!
Verification of the magi-gui repository: a shallow embedding of the result
data model, the result normalizers, the renderers, the report generator and
the streaming adapter, together with theorems about them.

Python dictionaries are embedded as association lists in insertion order
(`PyDict`), with lookup returning the unique binding of a key, and update
replacing an existing binding in place.  Fallible Python code is embedded
with `Except`; code that mutates state is embedded by explicit state passing.
-/

/-- A Python `dict` as an insertion-ordered association list.  The Python
`dict` invariant (no duplicate keys) is not needed by the lemmas below, which
mirror lookup and in-place update faithfully whether or not it holds. -/
abbrev PyDict (K V : Type) := List (K × V)

/-- `d[k]` lookup returning `none` when absent (`dict.get(k)`). -/
def dictGet? {K V : Type} [DecidableEq K] (d : PyDict K V) (k : K) : Option V :=
  match d with
  | [] => none
  | kv :: rest => if kv.1 = k then some kv.2 else dictGet? rest k

/-- `dict.get(k, default)`. -/
def dictGetD {K V : Type} [DecidableEq K] (d : PyDict K V) (k : K) (v₀ : V) : V :=
  (dictGet? d k).getD v₀

/-- `k in d`. -/
def dictContains {K V : Type} [DecidableEq K] (d : PyDict K V) (k : K) : Bool :=
  match d with
  | [] => false
  | kv :: rest => kv.1 = k || dictContains rest k

/-- `d[k] = v`: replace the binding of `k` in place, else append it. -/
def dictSet {K V : Type} [DecidableEq K] (d : PyDict K V) (k : K) (v : V) : PyDict K V :=
  match d with
  | [] => [(k, v)]
  | kv :: rest => if kv.1 = k then (k, v) :: rest else kv :: dictSet rest k v

/-- `sep.join(l)` (Python `str.join`). -/
def pyJoin (sep : String) (l : List String) : String :=
  match l with
  | [] => ""
  | x :: xs => xs.foldl (fun acc s => acc ++ sep ++ s) x

/-- Python `str.lower`, character by character (the phase names this layer
lower-cases are ASCII). -/
def pyLower (s : String) : String :=
  String.mk (s.data.map Char.toLower)

/-! ## Data model (from `magi.models`, as consumed by the source files) -/

/-- `PersonaType` enumeration; `value` below gives its lowercase string form. -/
inductive PersonaType where
  | melchior
  | balthasar
  | casper
deriving DecidableEq

/-- `PersonaType.value`: the lowercase string form of each persona. -/
def PersonaType.value : PersonaType → String
  | .melchior => "melchior"
  | .balthasar => "balthasar"
  | .casper => "casper"

/-- The iteration order of `for persona in PersonaType` (declaration order). -/
def personaIterOrder : List PersonaType :=
  [.melchior, .balthasar, .casper]

/-- `Vote` enumeration with its string values. -/
inductive Vote where
  | approve
  | deny
  | conditional
deriving DecidableEq

def Vote.value : Vote → String
  | .approve => "approve"
  | .deny => "deny"
  | .conditional => "conditional"

/-- `Decision` enumeration with its string values. -/
inductive Decision where
  | approved
  | denied
  | conditional
deriving DecidableEq

def Decision.value : Decision → String
  | .approved => "approved"
  | .denied => "denied"
  | .conditional => "conditional"

/-- `StreamChunk` from `magi.core.streaming` (the fields read by the adapter). -/
structure StreamChunk where
  persona : String
  chunk : String
  phase : String
  round_number : Option Nat
deriving DecidableEq

/-- `VoteOutput` (the fields read by the rendering and report code).  `vote`
and `conditions` are optional in the engine model; Python truthiness of
`conditions` treats both `None` and the empty list as false. -/
structure VoteOutput where
  vote : Option Vote
  reason : String
  conditions : Option (List String)
deriving DecidableEq

/-! ## Result normalizers (`app.py`, `_normalize_thinking` / `_normalize_votes`)

The input maps arrive from the engine with keys that may be persona
identities, strings, or anything else; `MapKey` is that key universe
(`MapKey.other` stands for any key that is neither a `PersonaType` nor a
string, which the `isinstance` checks skip). -/

inductive MapKey where
  | persona (p : PersonaType)
  | str (s : String)
  | other (n : Nat)
deriving DecidableEq

/-- The inner loop `for persona in PersonaType: if persona.value == key: ...
break` of both normalizers: the first persona whose string value equals `s`. -/
def findPersonaForString (s : String) : Option PersonaType :=
  personaIterOrder.find? (fun persona => persona.value = s)

/-- One iteration of the `for key, value in ...items()` loop shared by
`_normalize_thinking` and `_normalize_votes`. -/
def normalizeStep {V : Type} (normalized : PyDict PersonaType V) (kv : MapKey × V) :
    PyDict PersonaType V :=
  match kv.1 with
  | .persona p => dictSet normalized p kv.2
  | .str s =>
      match findPersonaForString s with
      | some p => dictSet normalized p kv.2
      | none => normalized
  | .other _ => normalized

/-- `_normalize_thinking` (app.py lines 93-105). -/
def normalize_thinking {V : Type} (thinking_results : PyDict MapKey V) :
    PyDict PersonaType V :=
  thinking_results.foldl normalizeStep []

/-- `_normalize_votes` (app.py lines 108-120); its body is identical to
`_normalize_thinking` in the source. -/
def normalize_votes {V : Type} (voting_results : PyDict MapKey V) :
    PyDict PersonaType V :=
  voting_results.foldl normalizeStep []

/-- Which persona (if any) a raw map key denotes after normalization. -/
def keyPersona : MapKey → Option PersonaType
  | .persona p => some p
  | .str s => findPersonaForString s
  | .other _ => none

/-- The value of the last entry of `m` whose key denotes persona `p`. -/
def lastNormValue {V : Type} (m : PyDict MapKey V) (p : PersonaType) : Option V :=
  match m with
  | [] => none
  | kv :: rest =>
      match lastNormValue rest p with
      | some v => some v
      | none => if keyPersona kv.1 = some p then some kv.2 else none

/-! ### Lemmas about the normalizers -/

theorem findPersonaForString_value (p : PersonaType) :
    findPersonaForString p.value = some p := by
  cases p <;> rfl

theorem dictGet?_dictSet {K V : Type} [DecidableEq K] (d : PyDict K V) (k : K) (v : V)
    (k' : K) : dictGet? (dictSet d k v) k' = if k = k' then some v else dictGet? d k' := by
  induction d with
  | nil => simp [dictSet, dictGet?]
  | cons kv rest ih =>
      by_cases h1 : kv.1 = k
      · by_cases h2 : k = k' <;> simp [dictSet, dictGet?, h1, h2]
      · by_cases h2 : kv.1 = k'
        · have h3 : ¬ k = k' := fun h => h1 (h2 ▸ h.symm)
          have h4 : ¬ k' = k := fun h => h3 h.symm
          simp [dictSet, dictGet?, h1, h2, h3, h4]
        · simp [dictSet, dictGet?, h1, h2, ih]

theorem dictGet?_normalizeStep {V : Type} (acc : PyDict PersonaType V) (kv : MapKey × V)
    (p : PersonaType) :
    dictGet? (normalizeStep acc kv) p =
      if keyPersona kv.1 = some p then some kv.2 else dictGet? acc p := by
  rcases kv with ⟨k, v⟩
  cases k with
  | persona q =>
      simp only [normalizeStep, keyPersona, dictGet?_dictSet, Option.some_inj]
  | str s =>
      cases hfind : findPersonaForString s with
      | none => simp [normalizeStep, keyPersona, hfind]
      | some q =>
          simp only [normalizeStep, keyPersona, hfind, dictGet?_dictSet, Option.some_inj]
  | other n => simp [normalizeStep, keyPersona]

theorem dictGet?_foldl_normalizeStep {V : Type} (m : PyDict MapKey V)
    (acc : PyDict PersonaType V) (p : PersonaType) :
    dictGet? (m.foldl normalizeStep acc) p =
      match lastNormValue m p with
      | some v => some v
      | none => dictGet? acc p := by
  induction m generalizing acc with
  | nil => simp [lastNormValue]
  | cons kv rest ih =>
      simp only [List.foldl_cons, ih, lastNormValue]
      cases h : lastNormValue rest p with
      | some v => simp
      | none =>
          simp only [dictGet?_normalizeStep]
          by_cases hk : keyPersona kv.1 = some p <;> simp [hk]

theorem foldl_normalizeStep_str_keys {V : Type} (m : PyDict PersonaType V)
    (acc : PyDict PersonaType V) :
    List.foldl normalizeStep acc (m.map (fun kv => (MapKey.str kv.1.value, kv.2))) =
      List.foldl normalizeStep acc (m.map (fun kv => (MapKey.persona kv.1, kv.2))) := by
  induction m generalizing acc with
  | nil => rfl
  | cons kv rest ih =>
      simp only [List.map_cons, List.foldl_cons, normalizeStep,
        findPersonaForString_value]
      exact ih _

/-- C2: for every three-entry persona map, normalizing the string-keyed
version agrees with normalizing the identity-keyed version, for the thinking
normalizer and for the voting normalizer alike. -/
theorem c2_normalize_string_identity_agree {V : Type} (m : PyDict PersonaType V)
    (hperm : List.Perm (m.map Prod.fst) personaIterOrder) :
    normalize_thinking (m.map (fun kv => (MapKey.str kv.1.value, kv.2))) =
        normalize_thinking (m.map (fun kv => (MapKey.persona kv.1, kv.2))) ∧
      normalize_votes (m.map (fun kv => (MapKey.str kv.1.value, kv.2))) =
        normalize_votes (m.map (fun kv => (MapKey.persona kv.1, kv.2))) :=
  ⟨foldl_normalizeStep_str_keys m [], foldl_normalizeStep_str_keys m []⟩

theorem c2_witness :
    List.Perm (([(PersonaType.melchior, 1), (PersonaType.balthasar, 2),
        (PersonaType.casper, 3)] : PyDict PersonaType Nat).map Prod.fst)
      personaIterOrder ∧
    normalize_thinking (([(PersonaType.melchior, 1), (PersonaType.balthasar, 2),
        (PersonaType.casper, 3)] : PyDict PersonaType Nat).map
          (fun kv => (MapKey.str kv.1.value, kv.2))) =
      normalize_thinking (([(PersonaType.melchior, 1), (PersonaType.balthasar, 2),
        (PersonaType.casper, 3)] : PyDict PersonaType Nat).map
          (fun kv => (MapKey.persona kv.1, kv.2))) ∧
    normalize_votes (([(PersonaType.melchior, 1), (PersonaType.balthasar, 2),
        (PersonaType.casper, 3)] : PyDict PersonaType Nat).map
          (fun kv => (MapKey.str kv.1.value, kv.2))) =
      normalize_votes (([(PersonaType.melchior, 1), (PersonaType.balthasar, 2),
        (PersonaType.casper, 3)] : PyDict PersonaType Nat).map
          (fun kv => (MapKey.persona kv.1, kv.2))) := by
  refine ⟨by decide, ?_⟩
  exact c2_normalize_string_identity_agree
    [(PersonaType.melchior, 1), (PersonaType.balthasar, 2), (PersonaType.casper, 3)]
    (by decide)

/-- C4 counterexample: a map may contain both a persona-identity key and the
matching string key; the later entry then overwrites the earlier one, so the
entry whose key is the persona identity is not kept.  Here
`normalize_thinking` of `{melchior: 0, "melchior": 1}` is `{melchior: 1}`,
which does not contain the entry `(melchior, 0)`. -/
theorem c4_counterexample :
    (PersonaType.melchior, 0) ∉
      normalize_thinking [(MapKey.persona PersonaType.melchior, 0),
        (MapKey.str "melchior", 1)] := by
  decide

/-- C4 (amended): normalization is total, the empty map normalizes to the
empty map, and the normalized map binds persona `p` exactly to the value of
the last input entry whose key denotes `p` — persona-identity keys are kept,
string keys are re-keyed to the persona identity, keys matching no persona
are silently dropped, and when several keys denote the same persona the last
entry wins.  Both normalizers agree. -/
theorem c4_normalize_last_wins {V : Type} (m : PyDict MapKey V) (p : PersonaType) :
    normalize_thinking ([] : PyDict MapKey V) = [] ∧
    normalize_votes ([] : PyDict MapKey V) = [] ∧
    dictGet? (normalize_thinking m) p = lastNormValue m p ∧
    dictGet? (normalize_votes m) p = lastNormValue m p := by
  refine ⟨rfl, rfl, ?_, ?_⟩ <;>
  · show dictGet? (m.foldl normalizeStep []) p = lastNormValue m p
    rw [dictGet?_foldl_normalizeStep]
    cases lastNormValue m p <;> rfl

/-! ## Renderer (`app.py`) -/

/-- `PERSONA_ORDER` (app.py line 22): canonical display order. -/
def PERSONA_ORDER : List PersonaType :=
  [.melchior, .balthasar, .casper]

/-- `PERSONA_LABELS` (app.py lines 23-27; identical in report.py). -/
def PERSONA_LABELS : PersonaType → String
  | .melchior => "MELCHIOR"
  | .balthasar => "BALTHASAR"
  | .casper => "CASPER"

/-- `DECISION_CLASSES` (app.py lines 33-37). -/
def DECISION_CLASSES : PyDict Decision String :=
  [(.approved, "decision-approved"), (.denied, "decision-denied"),
   (.conditional, "decision-conditional")]

/-- `html.escape(·, quote=True)` on one character: the replacement text it
contributes to the output. -/
def escapeChar (c : Char) : List Char :=
  if c = '&' then "&amp;".toList
  else if c = '<' then "&lt;".toList
  else if c = '>' then "&gt;".toList
  else if c = '"' then "&quot;".toList
  else if c = Char.ofNat 39 then "&#x27;".toList
  else [c]

/-- `html.escape` with the default `quote=True` (Python stdlib), character by
character; the sequential `str.replace` calls of the stdlib implementation
denote exactly this map because `&` is replaced first. -/
def htmlEscape (s : String) : String :=
  String.mk ((s.data.map escapeChar).flatten)

/-- The fixed markup of `_render_persona_block` before the escaped content. -/
def personaBlockHead (title css_class : String) : String :=
  "<div class=\x27persona-card " ++ css_class ++ "\x27>" ++
    "<div class=\x27persona-title\x27>" ++ title ++ "</div>" ++
    "<pre class=\x27persona-content\x27>"

/-- The fixed markup of `_render_persona_block` after the escaped content. -/
def personaBlockTail : String :=
  "</pre>" ++ "</div>"

/-- `_render_persona_block` (app.py lines 123-132): the markup fragment passed
to `st.markdown`.  `content or ""` is the identity on the `String` model. -/
def render_persona_block (title css_class content : String) : String :=
  let safe_content := htmlEscape content
  "<div class=\x27persona-card " ++ css_class ++ "\x27>" ++
    "<div class=\x27persona-title\x27>" ++ title ++ "</div>" ++
    "<pre class=\x27persona-content\x27>" ++ safe_content ++ "</pre>" ++
    "</div>"

/-- One row of the on-screen voting table. -/
structure VotingRow where
  persona : String
  vote : String
  reason : String
  conditions : String
deriving DecidableEq

/-- The `Conditions` cell computed for a present vote in
`_render_voting_table` (app.py lines 180-182). -/
def screenConditionsCell (vote_output : VoteOutput) : String :=
  match vote_output.conditions with
  | some cs => if cs.isEmpty then "" else pyJoin " | " cs
  | none => ""

/-- The loop body of `_render_voting_table` (app.py lines 167-190) for one
persona: the row appended for that persona. -/
def votingRowFor (persona : PersonaType) (vote_output : Option VoteOutput) : VotingRow :=
  match vote_output with
  | none =>
      { persona := PERSONA_LABELS persona, vote := "N/A",
        reason := "No vote recorded.", conditions := "" }
  | some v =>
      let vote_value := match v.vote with
        | some vt => vt.value
        | none => "N/A"
      { persona := PERSONA_LABELS persona, vote := vote_value.toUpper,
        reason := v.reason, conditions := screenConditionsCell v }

/-- `_render_voting_table` (app.py lines 164-191): the rows handed to
`st.table`. -/
def render_voting_table (voting_results : PyDict PersonaType VoteOutput) :
    List VotingRow :=
  PERSONA_ORDER.map (fun persona => votingRowFor persona (dictGet? voting_results persona))

/-! ## Report generator (`report.py`) -/

/-- `s.replace("|", "\\|")` used by `_voting_section`. -/
def escapePipes (s : String) : String :=
  s.replace "|" "\\|"

/-- The `conditions` cell computed for a present vote in
`ReportGenerator._voting_section` (report.py lines 151-154). -/
def reportConditionsCell (vote_output : VoteOutput) : String :=
  match vote_output.conditions with
  | some cs => if cs.isEmpty then "" else escapePipes (pyJoin ", " cs)
  | none => ""

/-- The loop body of `ReportGenerator._voting_section` (report.py lines
138-156) for one persona: the table line appended for that persona. -/
def reportVotingRow (persona : PersonaType) (vote_output : Option VoteOutput) : String :=
  match vote_output with
  | none => "| " ++ PERSONA_LABELS persona ++ " | N/A | No vote recorded. | |"
  | some v =>
      let vote_value := match v.vote with
        | some vt => vt.value.toUpper
        | none => "N/A"
      let reason := escapePipes v.reason
      "| " ++ PERSONA_LABELS persona ++ " | " ++ vote_value ++ " | " ++ reason ++
        " | " ++ reportConditionsCell v ++ " |"

/-- `ReportGenerator._voting_section` (report.py lines 129-158). -/
def voting_section (voting_results : PyDict PersonaType VoteOutput) : String :=
  let lines := ["## Voting Phase", "", "| Persona | Vote | Reason | Conditions |",
    "|:--------|:----:|:-------|:-----------|"] ++
    PERSONA_ORDER.map (fun persona => reportVotingRow persona (dictGet? voting_results persona))
  pyJoin "\n" lines

/-- `DECISION_LABELS` (report.py lines 26-30). -/
def DECISION_LABELS : PyDict Decision String :=
  [(.approved, "✅ APPROVED"), (.denied, "❌ DENIED"), (.conditional, "⚠️ CONDITIONAL")]

/-- Python `str(decision)` for a `Decision` enum member; only the default of
`DECISION_LABELS.get`, unreachable because the dict covers every member. -/
def pyStrDecision : Decision → String
  | .approved => "Decision.APPROVED"
  | .denied => "Decision.DENIED"
  | .conditional => "Decision.CONDITIONAL"

/-- The banner string of `_render_final_decision` (app.py lines 196-200). -/
def decisionBanner (decision : Decision) : String :=
  "<div class=\x27decision-banner " ++
    dictGetD DECISION_CLASSES decision "decision-conditional" ++
    "\x27>Final Decision: " ++ decision.value.toUpper ++ "</div>"

/-- `_render_final_decision` (app.py lines 194-204): the sequence of markdown
strings it emits — the banner, then, only when `conditions` is truthy, the
conditions header and one line per condition. -/
def render_final_decision (decision : Decision) (conditions : List String) :
    List String :=
  decisionBanner decision ::
    (if conditions.isEmpty then []
     else "<div class=\x27decision-conditions\x27>Conditions:</div>" ::
       conditions.map (fun item => "- " ++ item))

/-- `ReportGenerator._decision_section` (report.py lines 160-179). -/
def decision_section (decision : Decision) (all_conditions : List String) : String :=
  let decision_label := dictGetD DECISION_LABELS decision (pyStrDecision decision)
  let lines := ["## Final Decision", "", "**" ++ decision_label ++ "**"] ++
    (if all_conditions.isEmpty then []
     else ["", "### Conditions", ""] ++ all_conditions.map (fun condition => "- " ++ condition))
  pyJoin "\n" lines

/-! ## Filename generation (`report.py`, `generate_filename`) -/

/-- A wall-clock timestamp as consumed by `strftime("%Y%m%d-%H%M%S")`. -/
structure Timestamp where
  year : Nat
  month : Nat
  day : Nat
  hour : Nat
  minute : Nat
  second : Nat

/-- Two-digit zero padding of `strftime` fields. -/
def pad2 (n : Nat) : String :=
  if n < 10 then "0" ++ toString n else toString n

/-- Four-digit zero padding of the `%Y` field. -/
def pad4 (n : Nat) : String :=
  if n < 10 then "000" ++ toString n
  else if n < 100 then "00" ++ toString n
  else if n < 1000 then "0" ++ toString n
  else toString n

/-- `timestamp.strftime("%Y%m%d-%H%M%S")`. -/
def formatYmdHms (t : Timestamp) : String :=
  pad4 t.year ++ pad2 t.month ++ pad2 t.day ++ "-" ++
    pad2 t.hour ++ pad2 t.minute ++ pad2 t.second

/-- `generate_filename` (report.py lines 201-215) with an explicit timestamp
(the `None` default takes the current time and is outside this model).  The
prompt argument is never read. -/
def generate_filename (prompt : String) (timestamp : Timestamp) : String :=
  "magi-report-" ++ formatYmdHms timestamp ++ ".md"

/-! ### Theorems C6, C7, C8 -/

/-- C6: rendering the voting table for the empty persona map yields exactly
three rows, one per persona in canonical order, each with vote `N/A`, reason
`No vote recorded.` and empty conditions. -/
theorem c6_empty_voting_table :
    render_voting_table [] =
      [{ persona := "MELCHIOR", vote := "N/A", reason := "No vote recorded.",
          conditions := "" },
       { persona := "BALTHASAR", vote := "N/A", reason := "No vote recorded.",
          conditions := "" },
       { persona := "CASPER", vote := "N/A", reason := "No vote recorded.",
          conditions := "" }] := by
  rfl

/-- C7: for a vote with a non-empty conditions list, the on-screen table row
joins the conditions with `" | "`, while the report's table row joins the
same conditions with `", "` (and then escapes literal pipes, as the report
table format requires). -/
theorem c7_condition_delimiters (persona : PersonaType) (v : VoteOutput)
    (cs : List String) (hcs : v.conditions = some cs) (hne : cs ≠ []) :
    (votingRowFor persona (some v)).conditions = pyJoin " | " cs ∧
      reportVotingRow persona (some v) =
        "| " ++ PERSONA_LABELS persona ++ " | " ++
          (match v.vote with
           | some vt => vt.value.toUpper
           | none => "N/A") ++ " | " ++ escapePipes v.reason ++ " | " ++
          escapePipes (pyJoin ", " cs) ++ " |" := by
  have hempty : cs.isEmpty = false := by
    cases cs with
    | nil => exact absurd rfl hne
    | cons a l => rfl
  constructor
  · simp [votingRowFor, screenConditionsCell, hcs, hempty]
  · simp [reportVotingRow, reportConditionsCell, hcs, hempty]

/-- A sample vote used to instantiate `c7_condition_delimiters`. -/
def sampleVote : VoteOutput :=
  { vote := some Vote.approve, reason := "r", conditions := some ["a", "b"] }

theorem c7_witness :
    sampleVote.conditions = some ["a", "b"] ∧
    (["a", "b"] : List String) ≠ [] ∧
    (votingRowFor PersonaType.melchior (some sampleVote)).conditions =
      pyJoin " | " ["a", "b"] := by
  refine ⟨rfl, by decide, ?_⟩
  exact (c7_condition_delimiters PersonaType.melchior sampleVote
    ["a", "b"] rfl (by decide)).1

/-- C8: with the timestamp 2026-01-08 15:58:00 the generated filename is
exactly `magi-report-20260108-155800.md`, and for any fixed timestamp the
filename does not depend on the prompt. -/
theorem c8_filename :
    (∀ prompt : String,
      generate_filename prompt
        { year := 2026, month := 1, day := 8, hour := 15, minute := 58, second := 0 } =
        "magi-report-20260108-155800.md") ∧
    ∀ (p₁ p₂ : String) (t : Timestamp),
      generate_filename p₁ t = generate_filename p₂ t := by
  exact ⟨fun _ => rfl, fun _ _ _ => rfl⟩

/-! ### Theorem C5: escaping in `_render_persona_block` -/

theorem escapeChar_no_markup (a : Char) : ∀ c ∈ escapeChar a, c ≠ '<' ∧ c ≠ '>' := by
  intro c hc
  unfold escapeChar at hc
  split_ifs at hc with h1 h2 h3 h4 h5
  · have hl : "&amp;".toList = ['&', 'a', 'm', 'p', ';'] := rfl
    rw [hl] at hc
    simp only [List.mem_cons, List.not_mem_nil, or_false] at hc
    rcases hc with rfl | rfl | rfl | rfl | rfl <;> exact ⟨by decide, by decide⟩
  · have hl : "&lt;".toList = ['&', 'l', 't', ';'] := rfl
    rw [hl] at hc
    simp only [List.mem_cons, List.not_mem_nil, or_false] at hc
    rcases hc with rfl | rfl | rfl | rfl <;> exact ⟨by decide, by decide⟩
  · have hl : "&gt;".toList = ['&', 'g', 't', ';'] := rfl
    rw [hl] at hc
    simp only [List.mem_cons, List.not_mem_nil, or_false] at hc
    rcases hc with rfl | rfl | rfl | rfl <;> exact ⟨by decide, by decide⟩
  · have hl : "&quot;".toList = ['&', 'q', 'u', 'o', 't', ';'] := rfl
    rw [hl] at hc
    simp only [List.mem_cons, List.not_mem_nil, or_false] at hc
    rcases hc with rfl | rfl | rfl | rfl | rfl | rfl <;> exact ⟨by decide, by decide⟩
  · have hl : "&#x27;".toList = ['&', '#', 'x', '2', '7', ';'] := rfl
    rw [hl] at hc
    simp only [List.mem_cons, List.not_mem_nil, or_false] at hc
    rcases hc with rfl | rfl | rfl | rfl | rfl | rfl <;> exact ⟨by decide, by decide⟩
  · simp only [List.mem_cons, List.not_mem_nil, or_false] at hc
    subst hc
    exact ⟨h2, h3⟩

theorem htmlEscape_no_markup (s : String) :
    ∀ c ∈ (htmlEscape s).data, c ≠ '<' ∧ c ≠ '>' := by
  intro c hc
  have hdata : (htmlEscape s).data = (s.data.map escapeChar).flatten := rfl
  rw [hdata, List.mem_flatten] at hc
  obtain ⟨l, hl, hcl⟩ := hc
  rw [List.mem_map] at hl
  obtain ⟨a, _, rfl⟩ := hl
  exact escapeChar_no_markup a c hcl

theorem render_persona_block_decomp (title css_class content : String) :
    render_persona_block title css_class content =
      personaBlockHead title css_class ++ htmlEscape content ++ personaBlockTail := by
  apply String.ext
  simp [render_persona_block, personaBlockHead, personaBlockTail,
    String.data_append, List.append_assoc]

/-- C5: the fragment produced by `_render_persona_block` embeds exactly the
HTML-escaped form of the content between two fixed markup parts; the escaped
form contains no `<` and no `>` character, so for any content string that
does contain `<` or `>` the raw unescaped text never appears inside the
embedded (escaped) content. -/
theorem c5_escaped_embedding (title css_class content : String)
    (h : '<' ∈ content.data ∨ '>' ∈ content.data) :
    render_persona_block title css_class content =
        personaBlockHead title css_class ++ htmlEscape content ++ personaBlockTail ∧
      (∀ c ∈ (htmlEscape content).data, c ≠ '<' ∧ c ≠ '>') ∧
      ¬ (content.data <:+: (htmlEscape content).data) := by
  refine ⟨render_persona_block_decomp title css_class content,
    htmlEscape_no_markup content, ?_⟩
  intro hinf
  have hsub := List.IsInfix.subset hinf
  cases h with
  | inl hlt => exact (htmlEscape_no_markup content _ (hsub hlt)).1 rfl
  | inr hgt => exact (htmlEscape_no_markup content _ (hsub hgt)).2 rfl

theorem c5_witness :
    ('<' ∈ ("<b>hi</b>" : String).data ∨ '>' ∈ ("<b>hi</b>" : String).data) ∧
      ¬ (("<b>hi</b>" : String).data <:+: (htmlEscape "<b>hi</b>").data) := by
  refine ⟨Or.inl (by decide), ?_⟩
  exact (c5_escaped_embedding "MELCHIOR" "persona-melchior" "<b>hi</b>"
    (Or.inl (by decide))).2.2

/-! ### Theorem C9: the conditions section of the final decision -/

theorem pyJoin_foldl_infix_acc (sep : String) (xs : List String) (acc : String) :
    acc.data <:+: (xs.foldl (fun a s => a ++ sep ++ s) acc).data := by
  induction xs generalizing acc with
  | nil => exact ⟨[], [], by simp⟩
  | cons y ys ih =>
      have h1 : acc.data <:+: (acc ++ sep ++ y).data :=
        ⟨[], sep.data ++ y.data, by simp [String.data_append, List.append_assoc]⟩
      exact List.IsInfix.trans h1 (ih (acc ++ sep ++ y))

theorem pyJoin_foldl_infix_mem (sep : String) (xs : List String) (acc s : String)
    (hs : s ∈ xs) : s.data <:+: (xs.foldl (fun a s => a ++ sep ++ s) acc).data := by
  induction xs generalizing acc with
  | nil => cases hs
  | cons y ys ih =>
      rcases List.mem_cons.mp hs with rfl | hmem
      · have h1 : s.data <:+: (acc ++ sep ++ s).data :=
          ⟨acc.data ++ sep.data, [], by simp [String.data_append, List.append_assoc]⟩
        exact List.IsInfix.trans h1 (pyJoin_foldl_infix_acc sep ys (acc ++ sep ++ s))
      · exact ih (acc ++ sep ++ y) hmem

theorem pyJoin_infix_of_mem (sep : String) (l : List String) (s : String) (hs : s ∈ l) :
    s.data <:+: (pyJoin sep l).data := by
  cases l with
  | nil => cases hs
  | cons x xs =>
      rcases List.mem_cons.mp hs with rfl | hmem
      · exact pyJoin_foldl_infix_acc sep xs s
      · exact pyJoin_foldl_infix_mem sep xs x s hmem

/-- C9: with an empty merged conditions list, the on-screen final decision is
the banner alone and the report decision section contains no
`### Conditions` subheading; with a non-empty list, the on-screen output adds
a conditions header and one line per condition under the banner, and the
report decision section contains the `### Conditions` subheading. -/
theorem c9_conditions_section (decision : Decision) (conditions : List String) :
    (conditions = [] →
      render_final_decision decision conditions = [decisionBanner decision] ∧
        ¬ (("### Conditions" : String).data <:+:
            (decision_section decision conditions).data)) ∧
    (conditions ≠ [] →
      render_final_decision decision conditions =
          decisionBanner decision ::
            "<div class=\x27decision-conditions\x27>Conditions:</div>" ::
            conditions.map (fun item => "- " ++ item) ∧
        ("### Conditions" : String).data <:+:
          (decision_section decision conditions).data) := by
  constructor
  · rintro rfl
    refine ⟨rfl, ?_⟩
    cases decision <;> decide
  · intro hne
    have hempty : conditions.isEmpty = false := by
      cases conditions with
      | nil => exact absurd rfl hne
      | cons a l => rfl
    refine ⟨by simp [render_final_decision, hempty], ?_⟩
    have hmem : ("### Conditions" : String) ∈
        (["## Final Decision", "",
          "**" ++ dictGetD DECISION_LABELS decision (pyStrDecision decision) ++ "**"] ++
          (["", "### Conditions", ""] ++
            conditions.map (fun condition => "- " ++ condition))) := by
      simp
    have hsec : decision_section decision conditions =
        pyJoin "\n"
          (["## Final Decision", "",
            "**" ++ dictGetD DECISION_LABELS decision (pyStrDecision decision) ++ "**"] ++
            (["", "### Conditions", ""] ++
              conditions.map (fun condition => "- " ++ condition))) := by
      simp [decision_section, hempty]
    rw [hsec]
    exact pyJoin_infix_of_mem "\n" _ "### Conditions" hmem

theorem c9_witness :
    (([] : List String) = [] ∧
      render_final_decision Decision.approved [] = [decisionBanner Decision.approved]) ∧
    ((["check rollout"] : List String) ≠ [] ∧
      ("### Conditions" : String).data <:+:
        (decision_section Decision.conditional ["check rollout"]).data) := by
  refine ⟨⟨rfl, ((c9_conditions_section Decision.approved []).1 rfl).1⟩,
    ⟨by decide, ((c9_conditions_section Decision.conditional ["check rollout"]).2
      (by decide)).2⟩⟩

/-! ## Streaming adapter (`streaming_adapter.py`)

The adapter state is its `_chunks` dictionary; the user callback `on_chunk`
is an explicit argument (`none` embeds a `None` callback).  A callback that
raises is embedded as one returning `Except.error`. -/

/-- The initial `_chunks` dictionary set up by `__init__` (lines 37-41). -/
def initChunks : PyDict String (List StreamChunk) :=
  [("thinking", []), ("debate", []), ("voting", [])]

/-- The chunk-storing half of `_send_chunk` (lines 49-52): lower-case the
phase and append the chunk when the phase key exists. -/
def storePhase (chunks : PyDict String (List StreamChunk)) (c : StreamChunk) :
    PyDict String (List StreamChunk) :=
  let phase := pyLower c.phase
  if dictContains chunks phase then
    dictSet chunks phase (dictGetD chunks phase [] ++ [c])
  else chunks

/-- `StreamlitStreamingAdapter._send_chunk` (lines 43-56).  Returns the new
`_chunks` dictionary, the list of callback invocations made (in order), and
the exception escaping `_send_chunk`, if any: the source stores the chunk,
then calls `self.on_chunk(chunk)` with no surrounding `try`/`except`, so an
exception raised by the callback propagates to the caller of `_send_chunk`
(the producer-side emitter that awaits it as its `send_func`). -/
def send_chunk (on_chunk : Option (StreamChunk → Except String Unit))
    (chunks : PyDict String (List StreamChunk)) (c : StreamChunk) :
    PyDict String (List StreamChunk) × List StreamChunk × Option String :=
  let chunks := storePhase chunks c
  match on_chunk with
  | none => (chunks, [], none)
  | some cb =>
      match cb c with
      | .ok _ => (chunks, [c], none)
      | .error e => (chunks, [c], some e)

/-- `get_chunks_by_phase` (lines 72-81). -/
def get_chunks_by_phase (chunks : PyDict String (List StreamChunk))
    (phase : String) : List StreamChunk :=
  dictGetD chunks (pyLower phase) []

/-- C1 counterexample: delivering a chunk to a callback that raises makes the
exception escape `_send_chunk` (third component `some "boom"` rather than
`none`): the exception is propagated to the producer-side caller, not
isolated. -/
theorem c1_counterexample :
    (send_chunk (some (fun _ => Except.error "boom")) initChunks
        { persona := "melchior", chunk := "text", phase := "debate",
          round_number := some 1 }).2.2 ≠ none := by
  decide

/-- C1 (amended): `_send_chunk` stores the chunk in the phase history before
invoking the callback and invokes the callback exactly once with the chunk,
but it does not isolate callback failures: the callback exception escapes
`_send_chunk` (toward the producer-side emitter that awaits it) exactly when
the callback raises.  Whether later chunks are still delivered then depends
on the external emitter, not on code of this repository. -/
theorem c1_amended_exception_escape (cb : StreamChunk → Except String Unit)
    (chunks : PyDict String (List StreamChunk)) (c : StreamChunk) :
    (send_chunk (some cb) chunks c).1 = storePhase chunks c ∧
      (send_chunk (some cb) chunks c).2.1 = [c] ∧
      ((send_chunk (some cb) chunks c).2.2 = none ↔ cb c = Except.ok ()) := by
  cases hc : cb c with
  | ok u => cases u; simp [send_chunk, hc]
  | error e => simp [send_chunk, hc]

/-! ### C10: chunks of an unknown phase leave the history unchanged -/

theorem dictContains_eq_false {K V : Type} [DecidableEq K]
    (d : PyDict K V) (k : K) (h : ∀ kv ∈ d, kv.1 ≠ k) : dictContains d k = false := by
  induction d with
  | nil => rfl
  | cons kv rest ih =>
      simp only [dictContains, Bool.or_eq_false_iff, decide_eq_false_iff_not]
      exact ⟨h kv (List.mem_cons_self kv rest),
        ih (fun kv' hkv' => h kv' (List.mem_cons_of_mem kv hkv'))⟩

theorem dictGet?_eq_none {K V : Type} [DecidableEq K]
    (d : PyDict K V) (k : K) (h : ∀ kv ∈ d, kv.1 ≠ k) : dictGet? d k = none := by
  induction d with
  | nil => rfl
  | cons kv rest ih =>
      simp only [dictGet?, if_neg (h kv (List.mem_cons_self kv rest))]
      exact ih (fun kv' hkv' => h kv' (List.mem_cons_of_mem kv hkv'))

/-- C10: for a chunk whose lower-cased phase is not `thinking`, `debate` or
`voting`, `_send_chunk` leaves the per-phase history unchanged,
`get_chunks_by_phase` returns the empty list for that phase, and the
callback is still invoked exactly once with the chunk. -/
theorem c10_unknown_phase_frame (cb : StreamChunk → Except String Unit)
    (chunks : PyDict String (List StreamChunk)) (c : StreamChunk)
    (hkeys : chunks.map Prod.fst = ["thinking", "debate", "voting"])
    (hphase : pyLower c.phase ∉ (["thinking", "debate", "voting"] : List String)) :
    (send_chunk (some cb) chunks c).1 = chunks ∧
      get_chunks_by_phase (send_chunk (some cb) chunks c).1 c.phase = [] ∧
      (send_chunk (some cb) chunks c).2.1 = [c] := by
  have hk : ∀ kv ∈ chunks, kv.1 ≠ pyLower c.phase := by
    intro kv hkv heq
    exact hphase (heq ▸ hkeys ▸ List.mem_map_of_mem Prod.fst hkv)
  have hstore : storePhase chunks c = chunks := by
    simp [storePhase, dictContains_eq_false chunks (pyLower c.phase) hk]
  have hget : get_chunks_by_phase chunks c.phase = [] := by
    simp [get_chunks_by_phase, dictGetD, dictGet?_eq_none chunks (pyLower c.phase) hk]
  cases hc : cb c with
  | ok u => cases u; simp [send_chunk, hc, hstore, hget]
  | error e => simp [send_chunk, hc, hstore, hget]

theorem c10_witness :
    (initChunks.map Prod.fst = ["thinking", "debate", "voting"] ∧
      pyLower "Final" ∉ (["thinking", "debate", "voting"] : List String)) ∧
    (send_chunk (some (fun _ => Except.ok ())) initChunks
        { persona := "melchior", chunk := "x", phase := "Final",
          round_number := none }).1 = initChunks := by
  refine ⟨⟨rfl, by decide⟩, ?_⟩
  exact (c10_unknown_phase_frame (fun _ => Except.ok ()) initChunks
    { persona := "melchior", chunk := "x", phase := "Final", round_number := none }
    rfl (by decide)).1

/-! ## Streaming bridge runs (C3)

`QueueStreamingEmitter` belongs to magi-core and is not part of this
repository; its queue semantics are modelled from the spec (section 4.1). -/

/-- Helper: `_send_chunk` invokes the callback exactly once per chunk. -/
theorem send_chunk_calls (cb : StreamChunk → Except String Unit)
    (chunks : PyDict String (List StreamChunk)) (c : StreamChunk) :
    (send_chunk (some cb) chunks c).2.1 = [c] := by
  cases hc : cb c with
  | ok u => cases u; simp [send_chunk, hc]
  | error e => simp [send_chunk, hc]

/-- Modelled from the spec: the state of `QueueStreamingEmitter` (magi-core,
not in this repository) — a bounded FIFO queue of capacity `queue_size` and a
cumulative `dropped` counter. -/
structure EmitterState where
  queue : List StreamChunk
  queue_size : Nat
  dropped : Nat
deriving DecidableEq

/-- `create_emitter` (streaming_adapter.py lines 58-70): builds the emitter
over the adapter's queue size with `send_func = _send_chunk`; modelled from
the spec, a fresh emitter has an empty queue and a zero drop count. -/
def create_emitter (queue_size : Nat) : EmitterState :=
  { queue := [], queue_size := queue_size, dropped := 0 }

/-- Modelled from the spec: writing one chunk into the emitter.  When the
queue is full the producer waits up to the per-chunk timeout and on timeout
increments `dropped` and discards the chunk; a concurrently running consumer
is represented by interleaved drain steps of a schedule, so an emit against a
full queue here is the timeout-elapsed outcome. -/
def emitChunk (es : EmitterState) (c : StreamChunk) : EmitterState :=
  if es.queue.length < es.queue_size then { es with queue := es.queue ++ [c] }
  else { es with dropped := es.dropped + 1 }

/-- The `dropped` property (streaming_adapter.py lines 101-106): the
emitter's count when one exists, otherwise 0. -/
def adapterDropped : Option EmitterState → Nat
  | some e => e.dropped
  | none => 0

/-- The bridge-side state of one run: the emitter, the adapter's `_chunks`
history and the sequence of callback invocations made so far. -/
structure BridgeState where
  emitter : EmitterState
  chunks : PyDict String (List StreamChunk)
  delivered : List StreamChunk
deriving DecidableEq

/-- One scheduler step: the producer emits the next pending chunk, or the
background consumption task drains one queued chunk. -/
inductive BridgeStep where
  | emit
  | drain
deriving DecidableEq

/-- Modelled from the spec: one interleaving step of a streaming run.  An
`emit` step feeds the next pending chunk to the emitter; a `drain` step pops
the queue head and awaits `send_func = _send_chunk` with it (per the spec's
failure semantics the consumption task carries on with the next chunk if the
callback raised; the runs below use callbacks that never raise, so that
choice does not matter to them). -/
def bridgeStep (cb : StreamChunk → Except String Unit)
    (st : BridgeState × List StreamChunk) (step : BridgeStep) :
    BridgeState × List StreamChunk :=
  match step with
  | .emit =>
      match st.2 with
      | [] => st
      | c :: pending => ({ st.1 with emitter := emitChunk st.1.emitter c }, pending)
  | .drain =>
      match st.1.emitter.queue with
      | [] => st
      | c :: q =>
          let r := send_chunk (some cb) st.1.chunks c
          ({ emitter := { st.1.emitter with queue := q }, chunks := r.1,
             delivered := st.1.delivered ++ r.2.1 }, st.2)

/-- A whole scheduled run. -/
def runBridge (cb : StreamChunk → Except String Unit) (steps : List BridgeStep)
    (st : BridgeState × List StreamChunk) : BridgeState × List StreamChunk :=
  steps.foldl (bridgeStep cb) st

/-- The start of a run: a fresh adapter and the emitter it creates, with the
chunks the engine will emit still pending. -/
def bridgeInit (queue_size : Nat) (toEmit : List StreamChunk) :
    BridgeState × List StreamChunk :=
  ({ emitter := create_emitter queue_size, chunks := initChunks, delivered := [] }, toEmit)

/-- The run invariant behind C3: callbacks received a prefix of the emitted
chunks, the queue holds the middle segment, the rest is pending, and nothing
was dropped. -/
def bridgeInv (queue_size : Nat) (toEmit : List StreamChunk)
    (st : BridgeState × List StreamChunk) : Prop :=
  st.1.delivered ++ st.1.emitter.queue ++ st.2 = toEmit ∧
    st.1.emitter.dropped = 0 ∧ st.1.emitter.queue_size = queue_size

theorem bridgeStep_inv (cb : StreamChunk → Except String Unit) (queue_size : Nat)
    (toEmit : List StreamChunk) (st : BridgeState × List StreamChunk)
    (step : BridgeStep) (hcap : toEmit.length ≤ queue_size)
    (h : bridgeInv queue_size toEmit st) :
    bridgeInv queue_size toEmit (bridgeStep cb st step) := by
  obtain ⟨h1, h2, h3⟩ := h
  cases step with
  | emit =>
      cases hp : st.2 with
      | nil => simpa [bridgeStep, hp] using ⟨h1, h2, h3⟩
      | cons c pending =>
          have hlen : st.1.delivered.length +
              (st.1.emitter.queue.length + (pending.length + 1)) = toEmit.length := by
            have := congrArg List.length h1
            simpa [hp, List.length_append] using this
          have hroom : st.1.emitter.queue.length < st.1.emitter.queue_size := by
            omega
          refine ⟨?_, ?_, ?_⟩ <;>
            simp only [bridgeStep, hp, emitChunk, if_pos hroom]
          · rw [← h1, hp]
            simp [List.append_assoc]
          · exact h2
          · exact h3
  | drain =>
      cases hq : st.1.emitter.queue with
      | nil => simpa [bridgeStep, hq] using ⟨h1, h2, h3⟩
      | cons c q =>
          refine ⟨?_, ?_, ?_⟩ <;>
            simp only [bridgeStep, hq, send_chunk_calls]
          · rw [← h1, hq]
            simp [List.append_assoc]
          · exact h2
          · exact h3

theorem runBridge_inv (cb : StreamChunk → Except String Unit) (queue_size : Nat)
    (toEmit : List StreamChunk) (steps : List BridgeStep)
    (st : BridgeState × List StreamChunk) (hcap : toEmit.length ≤ queue_size)
    (h : bridgeInv queue_size toEmit st) :
    bridgeInv queue_size toEmit (runBridge cb steps st) := by
  induction steps generalizing st with
  | nil => exact h
  | cons s rest ih =>
      exact ih (bridgeStep cb st s) (bridgeStep_inv cb queue_size toEmit st s hcap h)

/-- C3: over any interleaving of producer emits and consumer drains, if at
most `queue_size` chunks are emitted in total, every pending chunk is
eventually emitted and the queue is fully drained, then the `on_chunk`
callback received exactly the emitted chunks, in submission order with no
reordering or duplication, and the adapter's `dropped` property reads 0.
The emitter itself is modelled from the spec (magi-core is not in this
repository). -/
theorem c3_below_capacity_delivery (queue_size : Nat) (toEmit : List StreamChunk)
    (steps : List BridgeStep) (cb : StreamChunk → Except String Unit)
    (hcap : toEmit.length ≤ queue_size)
    (hok : ∀ c, cb c = Except.ok ())
    (hemitted : (runBridge cb steps (bridgeInit queue_size toEmit)).2 = [])
    (hdrained : (runBridge cb steps (bridgeInit queue_size toEmit)).1.emitter.queue = []) :
    (runBridge cb steps (bridgeInit queue_size toEmit)).1.delivered = toEmit ∧
      adapterDropped (some (runBridge cb steps (bridgeInit queue_size toEmit)).1.emitter) = 0 := by
  have hinv := runBridge_inv cb queue_size toEmit steps (bridgeInit queue_size toEmit)
    hcap ⟨by simp [bridgeInit, create_emitter], by simp [bridgeInit, create_emitter],
      by simp [bridgeInit, create_emitter]⟩
  obtain ⟨h1, h2, _⟩ := hinv
  rw [hemitted, hdrained] at h1
  simp only [List.append_nil] at h1
  exact ⟨h1, by simpa [adapterDropped] using h2⟩

/-- Concrete chunks and schedule used to instantiate C3. -/
def chunkA : StreamChunk :=
  { persona := "melchior", chunk := "a", phase := "debate", round_number := some 1 }

def chunkB : StreamChunk :=
  { persona := "casper", chunk := "b", phase := "debate", round_number := some 1 }

def cbOk : StreamChunk → Except String Unit :=
  fun _ => Except.ok ()

def wSteps : List BridgeStep :=
  [.emit, .drain, .emit, .drain]

theorem c3_witness :
    (([chunkA, chunkB] : List StreamChunk).length ≤ 2 ∧
      (runBridge cbOk wSteps (bridgeInit 2 [chunkA, chunkB])).2 = [] ∧
      (runBridge cbOk wSteps (bridgeInit 2 [chunkA, chunkB])).1.emitter.queue = []) ∧
    (runBridge cbOk wSteps (bridgeInit 2 [chunkA, chunkB])).1.delivered = [chunkA, chunkB] ∧
      adapterDropped
        (some (runBridge cbOk wSteps (bridgeInit 2 [chunkA, chunkB])).1.emitter) = 0 := by
  refine ⟨⟨by decide, by decide, by decide⟩, ?_⟩
  exact c3_below_capacity_delivery 2 [chunkA, chunkB] wSteps cbOk (by decide)
    (fun _ => rfl) (by decide) (by decide)
